import Mathlib

/-!
Verification development for the Merinfo scraper (`src/merinfo_scraper.py`).

The pure decision logic of the scraper is embedded as executable Lean
definitions translated line by line from the Python source.  Machine floats
are modelled as rationals (all constants in the source are small decimal
literals), Python `None` as `Option`, and Python truthiness by explicit
`...Truthy` helpers.  The stateful collaborators that perform I/O
(`safe_request`, the BeautifulSoup selector machinery) are modelled as an
abstract environment `ScraperEnv` over an abstract state type, and
`search_person` threads that state exactly as the source mutates
`self.cache` / `self.request_count` / `self.last_request_time` /
`self.error_count` through its fetches.

Identifier policy: the source uses Swedish identifiers with the letters
å/ä/ö, which Lean does not accept in names; those names are transliterated
(ålder → alder, kön → kon, bästa_poäng → basta_poang, ...).  String
literals keep the original spelling.
-/

/-- Python truthiness of an `Optional[str]`: `None` and `""` are falsy. -/
def strTruthy : Option String → Bool
  | none => false
  | some s => !(s == "")

/-- Python truthiness of an `Optional[int]`: `None` and `0` are falsy. -/
def intTruthy : Option Int → Bool
  | none => false
  | some n => !(n == 0)

/-- Python `min(a, b)` on two numbers: returns `a` when `a <= b`. -/
def pyMin (a b : ℚ) : ℚ := if a ≤ b then a else b

/-! ## Query normalizer (`normalize_svensk_namn`, lines 341-362)

The source applies, in order: `strip`, six digraph replacements
(`aa→å`, `ae→ä`, `oe→ö`, `AA→Å`, `AE→Ä`, `OE→Ö`, in dict insertion
order), `re.sub(r'\s+', ' ', ...)`, `re.sub(r'[^\w\såäöÅÄÖ-]', '', ...)`
and `.title()`.  The embedding works on `List Char`.  Python's Unicode
character classes are modelled by the ASCII classes extended with the six
Swedish letters, which is faithful on the alphabet this program handles. -/

/-- Uppercase for the working alphabet: ASCII plus å/ä/ö. -/
def swUpper (c : Char) : Char :=
  if c = 'å' then 'Å' else if c = 'ä' then 'Ä' else if c = 'ö' then 'Ö' else c.toUpper

/-- Lowercase for the working alphabet: ASCII plus Å/Ä/Ö. -/
def swLower (c : Char) : Char :=
  if c = 'Å' then 'å' else if c = 'Ä' then 'ä' else if c = 'Ö' then 'ö' else c.toLower

/-- Membership in the six explicitly allowed Swedish letters of the regex. -/
def isSwedishLetter (c : Char) : Bool :=
  c = 'å' || c = 'ä' || c = 'ö' || c = 'Å' || c = 'Ä' || c = 'Ö'

/-- Cased character, for `.title()`: ASCII letters plus the Swedish letters. -/
def isCasedChar (c : Char) : Bool := c.isAlpha || isSwedishLetter c

/-- Characters kept by `re.sub(r'[^\w\såäöÅÄÖ-]', '', namn)`:
word characters (`\w` = alphanumeric or underscore), whitespace (`\s`),
the listed Swedish letters, and the hyphen. -/
def allowedNameChar (c : Char) : Bool :=
  c.isAlphanum || c = '_' || c.isWhitespace || isSwedishLetter c || c = '-'

/-- Python `str.strip()`: drop whitespace from both ends. -/
def pyStrip (l : List Char) : List Char :=
  ((l.dropWhile Char.isWhitespace).reverse.dropWhile Char.isWhitespace).reverse

/-- Python `str.replace(ab, r)` for a two-character pattern `a b` and a
one-character replacement `r`: left-to-right, non-overlapping. -/
def replace2 (a b rep : Char) : List Char → List Char
  | [] => []
  | [c] => [c]
  | c :: d :: cs =>
    if c = a ∧ d = b then rep :: replace2 a b rep cs
    else c :: replace2 a b rep (d :: cs)

/-- Model of `re.sub(r'\s+', ' ', ...)`: every maximal run of whitespace
becomes a single space. -/
def collapseWs : List Char → List Char
  | [] => []
  | [c] => if c.isWhitespace then [' '] else [c]
  | c :: d :: cs =>
    if c.isWhitespace then
      if d.isWhitespace then collapseWs (d :: cs)
      else ' ' :: collapseWs (d :: cs)
    else c :: collapseWs (d :: cs)

/-- Python `str.title()`: a cased character following a non-cased character
is uppercased, every other cased character is lowercased. -/
def pyTitleGo (prevCased : Bool) : List Char → List Char
  | [] => []
  | c :: cs =>
    if isCasedChar c then
      (if prevCased then swLower c else swUpper c) :: pyTitleGo true cs
    else c :: pyTitleGo false cs

/-- `normalize_svensk_namn` (source lines 341-362).  The `@lru_cache`
decorator on the source function only memoizes and does not change the
value. -/
def normalize_svensk_namn (namn : String) : String :=
  if namn = "" then ""
  else
    let l := pyStrip namn.data
    let l := replace2 'a' 'a' 'å' l
    let l := replace2 'a' 'e' 'ä' l
    let l := replace2 'o' 'e' 'ö' l
    let l := replace2 'A' 'A' 'Å' l
    let l := replace2 'A' 'E' 'Ä' l
    let l := replace2 'O' 'E' 'Ö' l
    let l := collapseWs l
    let l := l.filter allowedNameChar
    ⟨pyTitleGo false l⟩

/-! ## Data model (source lines 58-113) -/

/-- `PersonResult` (lines 58-74).  `profil_url` is declared `str` in the
source but `namn_länk.get('href')` can yield `None` (line 382), so it is
modelled as `Option String`.  Transliterated fields: `ålder` → `alder`,
`kön` → `kon`. -/
structure PersonResult where
  namn : String
  profil_url : Option String
  adress : String
  gata : String
  personnummer : String
  alder : Option Int := none
  kon : Option String := none
  bolagsengagemang : Bool := false
deriving DecidableEq, Repr

/-- `FordonResult` (lines 76-89).  Transliterated fields: `märke_modell` →
`marke_modell`, `år` → `ar`, `ägare` → `agare`. -/
structure FordonResult where
  marke_modell : String
  ar : String
  agare : String
  fordontyp : Option String := none
  registreringsnummer : Option String := none
deriving DecidableEq, Repr

/-- `SearchResult` (lines 91-113).  `quality_score` and `response_time`
(Python floats) are modelled as rationals. -/
structure SearchResult where
  success : Bool
  persons : List PersonResult
  vehicles : List FordonResult
  quality_score : ℚ
  error_message : Option String := none
  search_strategy : Option String := none
  response_time : Option ℚ := none
  suggestions : Option (List String) := none
deriving DecidableEq, Repr

/-! ## Response cache (`MerinfoCache`, source lines 115-140)

A Python dict is insertion-ordered with unique keys; it is modelled as an
association list.  A stored value is the dict `{'html': str}`, modelled as
the string payload.  Timestamps (`time.time()`) are passed in explicitly. -/

/-- Cache state: `cache` maps key to (payload, insertion timestamp),
in insertion order. -/
structure MerinfoCache where
  cache : List (String × String × ℚ) := []
  max_size : ℕ := 100
  ttl : ℚ := 3600
deriving DecidableEq

/-- Python dict assignment `d[k] = v`: overwrite in place if the key is
present (keeping its position), otherwise append. -/
def dictInsert : List (String × String × ℚ) → String → String → ℚ → List (String × String × ℚ)
  | [], k, v, t => [(k, v, t)]
  | e :: es, k, v, t => if e.1 = k then (k, v, t) :: es else e :: dictInsert es k v t

/-- `min(self.cache.keys(), key=lambda k: self.cache[k][-1])`: the first
entry (in insertion order) attaining the minimal timestamp, `none` on an
empty dict (where Python `min` raises `ValueError`). -/
def oldestEntry : List (String × String × ℚ) → Option (String × String × ℚ)
  | [] => none
  | e :: es =>
    match oldestEntry es with
    | none => some e
    | some m => some (if m.2.2 < e.2.2 then m else e)

/-- Python `del d[k]`: remove the (unique) entry with key `k`. -/
def delKey (k : String) : List (String × String × ℚ) → List (String × String × ℚ)
  | [] => []
  | e :: es => if e.1 = k then es else e :: delKey k es

/-- `MerinfoCache.set` (lines 131-137): evict the oldest entry whenever the
dict already holds at least `max_size` entries, then insert.  The
`oldestEntry ... = none` arm is unreachable for `max_size ≥ 1` (in Python it
raises `ValueError` out of `min` on the empty dict). -/
def MerinfoCache.set (c : MerinfoCache) (key value : String) (now : ℚ) : MerinfoCache :=
  let cache :=
    if c.max_size ≤ c.cache.length then
      match oldestEntry c.cache with
      | some oldest => delKey oldest.1 c.cache
      | none => c.cache
    else c.cache
  { c with cache := dictInsert cache key value now }

/-- A sequence of `set` operations, each given as (key, payload, timestamp). -/
def MerinfoCache.setAll (c : MerinfoCache) (ops : List (String × String × ℚ)) : MerinfoCache :=
  ops.foldl (fun c op => c.set op.1 op.2.1 op.2.2) c

/-! ## Search strategy builder (`intelligent_search_builder`, lines 301-339) -/

/-- The conditional reassignment `if förnamn: förnamn = self.normalize_svensk_namn(förnamn)`:
`None` and `""` pass through, a non-empty value is normalized. -/
def normalizeIfTruthy (x : Option String) : Option String :=
  if strTruthy x then x.map normalize_svensk_namn else x

/-- Stable insertion into a confidence-descending list: skip over entries
with strictly larger confidence, as Python's stable
`sort(key=..., reverse=True)` orders them. -/
def insertByConfDesc (p : String × ℚ) : List (String × ℚ) → List (String × ℚ)
  | [] => [p]
  | q :: qs => if p.2 < q.2 then q :: insertByConfDesc p qs else p :: q :: qs

/-- Model of `sökstrategier.sort(key=lambda x: x[-1], reverse=True)`:
a stable sort, descending by the confidence component. -/
def sortByConfDesc : List (String × ℚ) → List (String × ℚ)
  | [] => []
  | p :: ps => insertByConfDesc p (sortByConfDesc ps)

/-- `intelligent_search_builder` (lines 301-339).  Confidences 1.0, 0.95,
0.8, 0.7, 0.6, 0.5 become the rationals 1, 19/20, 4/5, 7/10, 3/5, 1/2.
The birth-year query uses `2025 - ålder` formatted as a decimal integer. -/
def intelligent_search_builder (fornamn efternamn ort gata : Option String)
    (alder : Option Int) : List (String × ℚ) :=
  let fornamn := normalizeIfTruthy fornamn
  let efternamn := normalizeIfTruthy efternamn
  let ort := normalizeIfTruthy ort
  let gata := normalizeIfTruthy gata
  let fn := fornamn.getD ""
  let en := efternamn.getD ""
  let ot := ort.getD ""
  let gt := gata.getD ""
  let sokstrategier :=
    (if strTruthy fornamn && strTruthy efternamn && strTruthy ort then
        [(fn ++ "+" ++ en ++ "+" ++ ot, 1)]
      else [])
    ++ (if strTruthy gata && strTruthy ort then
          (if strTruthy fornamn && strTruthy efternamn then
              [(fn ++ "+" ++ en ++ "+" ++ gt ++ "+" ++ ot, 19/20)]
            else if strTruthy fornamn then
              [(fn ++ "+" ++ gt ++ "+" ++ ot, 4/5)]
            else [])
        else [])
    ++ (if strTruthy fornamn && strTruthy ort then [(fn ++ "+" ++ ot, 7/10)] else [])
    ++ (if strTruthy efternamn && strTruthy ort then [(en ++ "+" ++ ot, 3/5)] else [])
    ++ (if intTruthy alder && strTruthy fornamn && strTruthy efternamn then
          [(fn ++ "+" ++ en ++ "+" ++ toString (2025 - alder.getD 0), 1/2)]
        else [])
  (sortByConfDesc sokstrategier).take 4

/-- The candidate list as generated, before sorting and truncation —
used to state which generation rule produced a candidate. -/
def strategyRaw (fornamn efternamn ort gata : Option String)
    (alder : Option Int) : List (String × ℚ) :=
  let fornamn := normalizeIfTruthy fornamn
  let efternamn := normalizeIfTruthy efternamn
  let ort := normalizeIfTruthy ort
  let gata := normalizeIfTruthy gata
  let fn := fornamn.getD ""
  let en := efternamn.getD ""
  let ot := ort.getD ""
  let gt := gata.getD ""
  (if strTruthy fornamn && strTruthy efternamn && strTruthy ort then
      [(fn ++ "+" ++ en ++ "+" ++ ot, 1)]
    else [])
  ++ (if strTruthy gata && strTruthy ort then
        (if strTruthy fornamn && strTruthy efternamn then
            [(fn ++ "+" ++ en ++ "+" ++ gt ++ "+" ++ ot, 19/20)]
          else if strTruthy fornamn then
            [(fn ++ "+" ++ gt ++ "+" ++ ot, 4/5)]
          else [])
      else [])
  ++ (if strTruthy fornamn && strTruthy ort then [(fn ++ "+" ++ ot, 7/10)] else [])
  ++ (if strTruthy efternamn && strTruthy ort then [(en ++ "+" ++ ot, 3/5)] else [])
  ++ (if intTruthy alder && strTruthy fornamn && strTruthy efternamn then
        [(fn ++ "+" ++ en ++ "+" ++ toString (2025 - alder.getD 0), 1/2)]
      else [])

/-- Which input fields a candidate needs, indexed by its confidence value
(the six generation rules have pairwise distinct confidences).  "Present"
means non-empty after the builder's normalization pass. -/
def strategyFieldsOk (fornamn efternamn ort gata : Option String)
    (alder : Option Int) (c : String × ℚ) : Prop :=
  let fn := normalizeIfTruthy fornamn
  let en := normalizeIfTruthy efternamn
  let ot := normalizeIfTruthy ort
  let gt := normalizeIfTruthy gata
  (c.2 = 1 → strTruthy fn = true ∧ strTruthy en = true ∧ strTruthy ot = true)
  ∧ (c.2 = 19/20 → strTruthy fn = true ∧ strTruthy en = true ∧
      strTruthy gt = true ∧ strTruthy ot = true)
  ∧ (c.2 = 4/5 → strTruthy fn = true ∧ strTruthy gt = true ∧ strTruthy ot = true)
  ∧ (c.2 = 7/10 → strTruthy fn = true ∧ strTruthy ot = true)
  ∧ (c.2 = 3/5 → strTruthy en = true ∧ strTruthy ot = true)
  ∧ (c.2 = 1/2 → intTruthy alder = true ∧ strTruthy fn = true ∧ strTruthy en = true)

/-! ## Quality scorer (`calculate_quality_score`, lines 630-658) -/

/-- `calculate_quality_score` (lines 630-658).  The source also receives
the (unused) `sökparametrar` dict, omitted here.  Float constants 0.5,
0.3, 0.1, 0.2, 0.05 become 1/2, 3/10, 1/10, 1/5, 1/20.  The per-person
bonuses test Python truthiness of `adress`, `ålder`, `kön`. -/
def calculate_quality_score (personer : List PersonResult)
    (fordon : List FordonResult) : ℚ :=
  if personer = [] then 0
  else
    let poang : ℚ := 1/2
    let poang :=
      if personer.length = 1 then poang + 3/10
      else if personer.length ≤ 3 then poang + 1/10
      else poang
    let poang := if fordon ≠ [] then poang + 1/5 else poang
    let poang := personer.foldl (fun acc person =>
      let acc := if person.adress ≠ "" then acc + 1/20 else acc
      let acc := if intTruthy person.alder then acc + 1/20 else acc
      if strTruthy person.kon then acc + 1/20 else acc) poang
    pyMin 1 poang

/-- Closed form of the quality score, written from the specification's
words: base 0.5 when any person was found, +0.3 for a unique person or
+0.1 for 2-3 persons, +0.2 when vehicles exist, 0.05 per person with a
non-empty address / known age / known gender, clamped at 1. -/
def qualityScoreSpec (personer : List PersonResult)
    (fordon : List FordonResult) : ℚ :=
  if personer.length = 0 then 0
  else
    pyMin 1 (1/2
      + (if personer.length = 1 then 3/10
          else if personer.length ≤ 3 then 1/10 else 0)
      + (if fordon.length ≠ 0 then 1/5 else 0)
      + (1/20) * ((personer.countP fun p => p.adress ≠ "")
          + (personer.countP fun p => intTruthy p.alder)
          + (personer.countP fun p => strTruthy p.kon)))

/-! ## Disambiguation suggestions (`generate_suggestions`, lines 660-677)

Python's `list(set(xs))` enumerates the distinct elements in an
unspecified (hash-dependent) order; the embedding uses `List.dedup`,
which enumerates the same distinct elements in a fixed order.  Every
property proved below (distinctness, the cap of 5, provenance) is
independent of that order. -/

/-- The street values offered in the street suggestion: the non-empty
`gata` fields, deduplicated, first five. -/
def gataSuggestValues (personer : List PersonResult) : List String :=
  ((personer.filterMap fun p => if p.gata = "" then none else some p.gata).dedup).take 5

/-- The age values offered in the age suggestion: `str(p.ålder)` for each
person with truthy `ålder`, deduplicated, first five. -/
def alderSuggestValues (personer : List PersonResult) : List String :=
  ((personer.filterMap fun p =>
      if intTruthy p.alder then some (toString (p.alder.getD 0)) else none).dedup).take 5

/-- `generate_suggestions` (lines 660-677). -/
def generate_suggestions (personer : List PersonResult) : List String :=
  if 1 < personer.length then
    (if (personer.filterMap fun p => if p.gata = "" then none else some p.gata) = [] then []
      else ["Specificera gata: " ++ String.intercalate ", " (gataSuggestValues personer)])
    ++ (if (personer.filterMap fun p =>
            if intTruthy p.alder then some (toString (p.alder.getD 0)) else none) = [] then []
        else ["Specificera ålder: " ++ String.intercalate ", " (alderSuggestValues personer)])
  else []

/-! ## Birth year and age from the national ID
(`extract_additional_person_data`, lines 449-463) -/

/-- Python `int(...)` restricted to all-digit strings.  (The other forms
`int` accepts — signs, surrounding whitespace, underscores — do not reach
this code: a failure to parse raises `ValueError`, which the source turns
into "no age", i.e. `none` here.) -/
def parseIntDigits (l : List Char) : Option Nat :=
  if l ≠ [] ∧ l.all Char.isDigit then
    some (l.foldl (fun n c => 10 * n + (c.toNat - '0'.toNat)) 0)
  else none

/-- The birth year computed at lines 454-458: a leading "19"/"20" is read
as a four-digit year, otherwise the first two digits are a two-digit year
resolved with pivot 25 (`<= 25` → 2000s, else 1900s). -/
def birthYearOfPersonnummer (personnummer : String) : Option Int :=
  if personnummer.data.take 2 = "19".data ∨ personnummer.data.take 2 = "20".data then
    (parseIntDigits (personnummer.data.take 4)).map (fun y => (y : Int))
  else
    (parseIntDigits (personnummer.data.take 2)).map
      (fun t => if t ≤ 25 then 2000 + (t : Int) else 1900 + (t : Int))

/-- The `ålder` value extracted at lines 449-463: needs at least 8
characters, a parseable year, and a birth year within 1900-2025; the age
is then `2025 - birthYear`. -/
def alderFromPersonnummer (personnummer : String) : Option Int :=
  if 8 ≤ personnummer.data.length then
    match birthYearOfPersonnummer personnummer with
    | none => none
    | some y => if 1900 ≤ y ∧ y ≤ 2025 then some (2025 - y) else none
  else none

/-! ## Orchestrator (`search_person`, lines 679-785)

`safe_request` (network + cache + rate limiter, lines 242-299), the
BeautifulSoup person extraction (lines 470-505) and the profile-page
vehicle extraction (selector loop and table parsing, lines 507-575 and
610-628) perform I/O or depend on the HTML parser; they are the abstract
collaborators of the orchestrator.  `σ` is the scraper's mutable state
(session, cache, request_count, last_request_time, error_count), `Page` a
parsed page.  `now` models `time.time()` as a function of that state. -/

structure ScraperEnv (σ : Type) (Page : Type) where
  safe_request : σ → String → Option Page × σ
  extract_all_persons_robust : Page → List PersonResult
  extract_vehicles_on_profile : Page → List FordonResult
  quote_plus : String → String
  now : σ → ℚ

/-- `fetch_vehicle_info_robust` (lines 599-628): an absent or empty
profile URL yields `[]` with no fetch; a failed fetch yields `[]`;
otherwise the vehicle tables of the fetched page are extracted. -/
def fetch_vehicle_info_robust {σ Page : Type} (E : ScraperEnv σ Page) (s : σ)
    (profil_url : Option String) : List FordonResult × σ :=
  match profil_url with
  | none => ([], s)
  | some url =>
    if url = "" then ([], s)
    else
      match E.safe_request s url with
      | (none, s') => ([], s')
      | (some soup, s') => (E.extract_vehicles_on_profile soup, s')

/-- The strategy loop of `search_person` (lines 705-785), with the
`bästa_resultat` / `bästa_poäng` accumulators made explicit. -/
def search_person_loop {σ Page : Type} (E : ScraperEnv σ Page) (start_time : ℚ) :
    List (String × ℚ) → σ → Option SearchResult → ℚ → SearchResult × σ
  | [], s, basta_resultat, _basta_poang =>
    match basta_resultat with
    | some r => (r, s)
    | none =>
      ({ success := false, persons := [], vehicles := [], quality_score := 0,
         error_message := some "Inga resultat hittades",
         response_time := some (E.now s - start_time) }, s)
  | (strategi, _konfidenspoang) :: rest, s, basta_resultat, basta_poang =>
    match E.safe_request s ("https://www.merinfo.se/search?q=" ++ E.quote_plus strategi) with
    | (none, s') => search_person_loop E start_time rest s' basta_resultat basta_poang
    | (some soup, s') =>
      match E.extract_all_persons_robust soup with
      | [] => search_person_loop E start_time rest s' basta_resultat basta_poang
      | [person] =>
        let fs := fetch_vehicle_info_robust E s' person.profil_url
        ({ success := true, persons := [person], vehicles := fs.1,
           quality_score := calculate_quality_score [person] fs.1,
           search_strategy := some strategi,
           response_time := some (E.now fs.2 - start_time) }, fs.2)
      | p :: q :: more =>
        let personer := p :: q :: more
        if personer.length ≤ 3 then
          let kvalitetspoang := calculate_quality_score personer []
          if basta_poang < kvalitetspoang then
            search_person_loop E start_time rest s'
              (some { success := false, persons := personer, vehicles := [],
                      quality_score := kvalitetspoang,
                      error_message :=
                        some ("Flera resultat (" ++ toString personer.length
                          ++ "), specificera gata"),
                      search_strategy := some strategi,
                      response_time := some (E.now s' - start_time),
                      suggestions := some (generate_suggestions personer) })
              kvalitetspoang
          else search_person_loop E start_time rest s' basta_resultat basta_poang
        else search_person_loop E start_time rest s' basta_resultat basta_poang

/-- `search_person` (lines 679-785): validate, build strategies, run the
loop with an empty best-so-far accumulator. -/
def search_person {σ Page : Type} (E : ScraperEnv σ Page) (s0 : σ)
    (fornamn efternamn ort gata : Option String) (alder : Option Int) :
    SearchResult × σ :=
  let start_time := E.now s0
  if !(strTruthy fornamn || strTruthy efternamn || strTruthy ort) then
    ({ success := false, persons := [], vehicles := [], quality_score := 0,
       error_message := some "Minst ett sökkriterium krävs (förnamn, efternamn eller ort)" },
     s0)
  else
    search_person_loop E start_time
      (intelligent_search_builder fornamn efternamn ort gata alder) s0 none 0

/-! ## Concrete instances used by the witnesses -/

/-- A concrete extracted person with complete data. -/
def onePerson : PersonResult where
  namn := "Oscar Delerud"
  profil_url := some "https://www.merinfo.se/person/x"
  adress := "Storgatan 1, 784 51 Borlänge"
  gata := "Storgatan"
  personnummer := "19850112-3456"
  alder := some 40
  kon := some "Man"

/-- A concrete extracted vehicle. -/
def oneVehicle : FordonResult where
  marke_modell := "Volvo V70"
  ar := "2001"
  agare := "Oscar Delerud"
  fordontyp := some "Personbil"

/-- A second person at a different street, for multi-match scenarios. -/
def otherPerson : PersonResult where
  namn := "Oscar Delerud"
  profil_url := some "https://www.merinfo.se/person/y"
  adress := "Kungsgatan 2, 784 52 Borlänge"
  gata := "Kungsgatan"
  personnummer := ""
  alder := some 62
  kon := some "Man"

/-- A minimal environment: the state counts issued fetches, every fetch
succeeds, and no page yields any person or vehicle. -/
def emptyEnv : ScraperEnv Nat Unit where
  safe_request := fun s _ => (some (), s + 1)
  extract_all_persons_robust := fun _ => []
  extract_vehicles_on_profile := fun _ => []
  quote_plus := fun s => s
  now := fun s => (s : ℚ)

/-- An environment whose pages are the fetched URLs: the search page for
query "q" shows exactly `onePerson`, whose profile page shows
`oneVehicle`. -/
def singleHitEnv : ScraperEnv Nat String where
  safe_request := fun s url => (some url, s + 1)
  extract_all_persons_robust := fun page =>
    if page = "https://www.merinfo.se/search?q=q" then [onePerson] else []
  extract_vehicles_on_profile := fun page =>
    if page = "https://www.merinfo.se/person/x" then [oneVehicle] else []
  quote_plus := fun s => s
  now := fun s => (s : ℚ)

/-- An environment where the search page for query "q" shows two persons
(and no single-match page exists). -/
def twoHitEnv : ScraperEnv Nat String where
  safe_request := fun s url => (some url, s + 1)
  extract_all_persons_robust := fun page =>
    if page = "https://www.merinfo.se/search?q=q" then [onePerson, otherPerson] else []
  extract_vehicles_on_profile := fun _ => []
  quote_plus := fun s => s
  now := fun s => (s : ℚ)

/-! # Theorems

Helper lemmas first, then one theorem per claim (with witnesses and
counterexamples where required). -/

/-- The per-person bonus loop of `calculate_quality_score` adds 1/20 per
satisfied predicate occurrence. -/
theorem quality_foldl_closed (personer : List PersonResult) (init : ℚ) :
    personer.foldl (fun acc person =>
      let acc := if person.adress ≠ "" then acc + 1/20 else acc
      let acc := if intTruthy person.alder then acc + 1/20 else acc
      if strTruthy person.kon then acc + 1/20 else acc) init
    = init + (1/20) * ((personer.countP fun p => p.adress ≠ "")
        + (personer.countP fun p => intTruthy p.alder)
        + (personer.countP fun p => strTruthy p.kon)) := by
  induction personer generalizing init with
  | nil => simp
  | cons p ps ih =>
    simp only [List.foldl_cons, List.countP_cons, ih]
    by_cases h1 : p.adress = "" <;> by_cases h2 : intTruthy p.alder <;>
      by_cases h3 : strTruthy p.kon <;> simp [h1, h2, h3] <;> ring

/-- The stepwise score of the source equals the closed formula of the
specification. -/
theorem calculate_quality_score_eq_spec (personer : List PersonResult)
    (fordon : List FordonResult) :
    calculate_quality_score personer fordon = qualityScoreSpec personer fordon := by
  by_cases hp : personer = []
  · subst hp; simp [calculate_quality_score, qualityScoreSpec]
  · have hl : ¬ personer.length = 0 := by simpa [List.length_eq_zero] using hp
    simp only [calculate_quality_score, qualityScoreSpec, if_neg hp, if_neg hl,
      quality_foldl_closed, ne_eq, List.length_eq_zero]
    split_ifs <;> (congr 1 <;> ring)

/-- `pyMin` never exceeds its first argument. -/
theorem pyMin_le_left (a b : ℚ) : pyMin a b ≤ a := by
  unfold pyMin
  split_ifs with h
  · exact le_refl a
  · linarith

/-- `pyMin` of two nonnegative values is nonnegative. -/
theorem pyMin_nonneg {a b : ℚ} (ha : 0 ≤ a) (hb : 0 ≤ b) : 0 ≤ pyMin a b := by
  unfold pyMin
  split_ifs <;> assumption

/-- The closed-form score is nonnegative. -/
theorem qualityScoreSpec_nonneg (personer : List PersonResult)
    (fordon : List FordonResult) : 0 ≤ qualityScoreSpec personer fordon := by
  by_cases h0 : personer.length = 0
  · simp [qualityScoreSpec, h0]
  · rw [qualityScoreSpec, if_neg h0]
    refine pyMin_nonneg (by norm_num) ?_
    have b1 : (0:ℚ) ≤
        if personer.length = 1 then 3/10 else if personer.length ≤ 3 then 1/10 else 0 := by
      split_ifs <;> norm_num
    have b2 : (0:ℚ) ≤ if fordon.length ≠ 0 then 1/5 else 0 := by
      split_ifs <;> norm_num
    have b3 : (0:ℚ) ≤ (1/20) * ((personer.countP fun p => p.adress ≠ "")
        + (personer.countP fun p => intTruthy p.alder)
        + (personer.countP fun p => strTruthy p.kon)) := by positivity
    linarith

/-- The closed-form score is at most one. -/
theorem qualityScoreSpec_le_one (personer : List PersonResult)
    (fordon : List FordonResult) : qualityScoreSpec personer fordon ≤ 1 := by
  by_cases h0 : personer.length = 0
  · simp [qualityScoreSpec, h0]
  · rw [qualityScoreSpec, if_neg h0]
    exact pyMin_le_left 1 _

/-- C5: `calculate_quality_score` returns a value in [0,1] equal to the
claimed formula — 0 with no person, else 0.5 base, +0.3 for exactly one
person or +0.1 for 2-3 persons, +0.2 for any vehicle, +0.05 per person
with non-empty address / truthy age / truthy gender, clamped at 1 — and
one person with address, age and gender plus a vehicle sums to
1/2 + 3/10 + 1/5 + 3·(1/20) = 23/20 = 1.15 before clamping, so the score
clamps to 1. -/
theorem C5_quality_score_formula :
    (∀ (personer : List PersonResult) (fordon : List FordonResult),
        0 ≤ calculate_quality_score personer fordon
          ∧ calculate_quality_score personer fordon ≤ 1)
    ∧ (∀ (personer : List PersonResult) (fordon : List FordonResult),
        calculate_quality_score personer fordon = qualityScoreSpec personer fordon)
    ∧ ((1 : ℚ)/2 + 3/10 + 1/5 + (1/20) * (1 + 1 + 1) = 23/20)
    ∧ (∀ (p : PersonResult) (v : FordonResult) (vs : List FordonResult),
        p.adress ≠ "" → intTruthy p.alder = true → strTruthy p.kon = true →
        calculate_quality_score [p] (v :: vs) = 1) := by
  refine ⟨?_, calculate_quality_score_eq_spec, by norm_num, ?_⟩
  · intro personer fordon
    rw [calculate_quality_score_eq_spec]
    exact ⟨qualityScoreSpec_nonneg personer fordon, qualityScoreSpec_le_one personer fordon⟩
  · intro p v vs h1 h2 h3
    rw [calculate_quality_score_eq_spec, qualityScoreSpec]
    simp [List.countP_cons, h1, h2, h3, pyMin]
    norm_num

/-- Witness for C5 at a concrete person and vehicle. -/
theorem C5_quality_score_formula_witness :
    onePerson.adress ≠ "" ∧ intTruthy onePerson.alder = true
      ∧ strTruthy onePerson.kon = true
      ∧ calculate_quality_score [onePerson] [oneVehicle] = 1 :=
  ⟨by decide, by decide, by decide,
    C5_quality_score_formula.2.2.2 onePerson oneVehicle []
      (by decide) (by decide) (by decide)⟩

/-- C7: the birth year derived from a national ID is 1985 for IDs
beginning "198501" (a leading "19"/"20" is read as a 4-digit year), 2025
for IDs beginning "250101" (two-digit year 25 ≤ pivot 25), 1999 for IDs
beginning "990101" (99 > pivot), and the age field is set — to 2025 minus
the birth year — exactly when the derived birth year lies in 1900-2025
(given the 8-character minimum). -/
theorem C7_birth_year_pivot :
    (∀ rest : List Char, birthYearOfPersonnummer ⟨"198501".data ++ rest⟩ = some 1985)
    ∧ (∀ rest : List Char, birthYearOfPersonnummer ⟨"250101".data ++ rest⟩ = some 2025)
    ∧ (∀ rest : List Char, birthYearOfPersonnummer ⟨"990101".data ++ rest⟩ = some 1999)
    ∧ (∀ (pnr : String) (a : Int), alderFromPersonnummer pnr = some a →
        ∃ y : Int, birthYearOfPersonnummer pnr = some y
          ∧ 1900 ≤ y ∧ y ≤ 2025 ∧ a = 2025 - y)
    ∧ (∀ (pnr : String) (y : Int), birthYearOfPersonnummer pnr = some y →
        8 ≤ pnr.data.length → 1900 ≤ y → y ≤ 2025 →
        alderFromPersonnummer pnr = some (2025 - y)) := by
  refine ⟨?_, ?_, ?_, ?_, ?_⟩
  · intro rest
    have h : "198501".data = ['1','9','8','5','0','1'] := rfl
    simp only [birthYearOfPersonnummer, h]
    norm_num [List.take, parseIntDigits]
    decide
  · intro rest
    have h : "250101".data = ['2','5','0','1','0','1'] := rfl
    simp only [birthYearOfPersonnummer, h]
    norm_num [List.take, parseIntDigits]
    decide
  · intro rest
    have h : "990101".data = ['9','9','0','1','0','1'] := rfl
    simp only [birthYearOfPersonnummer, h]
    norm_num [List.take, parseIntDigits]
    decide
  · intro pnr a ha
    unfold alderFromPersonnummer at ha
    split_ifs at ha
    rcases hb : birthYearOfPersonnummer pnr with _ | y <;> rw [hb] at ha <;> simp at ha
    exact ⟨y, rfl, ha.1.1, ha.1.2, by omega⟩
  · intro pnr y hy hlen h1 h2
    unfold alderFromPersonnummer
    rw [if_pos hlen, hy]
    simp [h1, h2]

/-- Witness for C7 at a concrete national ID. -/
theorem C7_birth_year_pivot_witness :
    alderFromPersonnummer "19850112-3456" = some 40
      ∧ ∃ y : Int, birthYearOfPersonnummer "19850112-3456" = some y
          ∧ 1900 ≤ y ∧ y ≤ 2025 ∧ (40 : Int) = 2025 - y :=
  ⟨by decide, C7_birth_year_pivot.2.2.2.1 "19850112-3456" 40 (by decide)⟩

/-- C10: in `calculate_quality_score` the age bonus is granted exactly
when the age field is Python-truthy, i.e. present and nonzero: `intTruthy`
means "present and nonzero"; a person whose age is `some 0` scores the
same as one with no age at all; the extractor can produce age 0 (ID
beginning "25" gives birth year 2025, hence age 2025 − 2025 = 0); and a
nonzero age adds exactly 1/20 (shown away from the clamp). -/
theorem C10_age_bonus_nonzero :
    (∀ a : Option Int, intTruthy a = true ↔ ∃ n : Int, a = some n ∧ n ≠ 0)
    ∧ (∀ (p : PersonResult) (fordon : List FordonResult), p.alder = some 0 →
        calculate_quality_score [p] fordon
          = calculate_quality_score [{ p with alder := none }] fordon)
    ∧ (alderFromPersonnummer "25010112-3456" = some 0)
    ∧ (∀ (p : PersonResult) (a : Int), a ≠ 0 →
        calculate_quality_score [{ p with alder := some a, adress := "", kon := none }] []
          = calculate_quality_score [{ p with alder := none, adress := "", kon := none }] []
            + 1/20) := by
  refine ⟨?_, ?_, by decide, ?_⟩
  · intro a
    cases a with
    | none => simp [intTruthy]
    | some n =>
      simp only [intTruthy]
      constructor
      · intro h
        refine ⟨n, rfl, ?_⟩
        intro h0
        subst h0
        simp at h
      · rintro ⟨m, hm, h0⟩
        cases hm
        simpa using h0
  · intro p fordon hp
    rw [calculate_quality_score_eq_spec, calculate_quality_score_eq_spec]
    unfold qualityScoreSpec
    simp [List.countP_cons, hp, intTruthy]
  · intro p a ha
    rw [calculate_quality_score_eq_spec, calculate_quality_score_eq_spec]
    unfold qualityScoreSpec
    simp only [List.length_cons, List.length_nil, List.countP_cons, List.countP_nil]
    have h2 : intTruthy (some a) = true := by simp [intTruthy, ha]
    simp [h2, intTruthy, strTruthy, pyMin, ha]
    norm_num

/-- Witness for C10 at a zero-age person and a nonzero age. -/
theorem C10_age_bonus_nonzero_witness :
    (calculate_quality_score [{ onePerson with alder := some 0 }] []
        = calculate_quality_score [{ onePerson with alder := none }] [])
      ∧ (calculate_quality_score [{ onePerson with alder := some 40, adress := "", kon := none }] []
          = calculate_quality_score [{ onePerson with alder := none, adress := "", kon := none }] []
            + 1/20) :=
  ⟨C10_age_bonus_nonzero.2.1 { onePerson with alder := some 0 } [] rfl,
    C10_age_bonus_nonzero.2.2.2 onePerson 40 (by decide)⟩

/-- C1: when first name, last name and city are all absent (None or
empty), `search_person` returns the validation-failure outcome — not
successful, no persons, no vehicles, score 0, the descriptive message —
and the scraper state `s0` (cache, fetch counter, rate limiter, error
counter) is returned untouched: no fetch is issued in any environment. -/
theorem C1_validation_failure_no_fetch :
    ∀ (σ Page : Type) (E : ScraperEnv σ Page) (s0 : σ)
      (fornamn efternamn ort gata : Option String) (alder : Option Int),
      strTruthy fornamn = false → strTruthy efternamn = false → strTruthy ort = false →
      search_person E s0 fornamn efternamn ort gata alder =
        ({ success := false, persons := [], vehicles := [], quality_score := 0,
           error_message :=
             some "Minst ett sökkriterium krävs (förnamn, efternamn eller ort)" }, s0) := by
  intro σ Page E s0 fn en ot ga al h1 h2 h3
  simp [search_person, h1, h2, h3]

/-- Witness for C1: a concrete call with all three criteria absent. -/
theorem C1_validation_failure_no_fetch_witness :
    strTruthy (none : Option String) = false ∧ strTruthy (some "") = false ∧
    search_person emptyEnv 0 none (some "") none (some "Storgatan") (some 40) =
      ({ success := false, persons := [], vehicles := [], quality_score := 0,
         error_message :=
           some "Minst ett sökkriterium krävs (förnamn, efternamn eller ort)" }, 0) :=
  ⟨rfl, by decide,
    C1_validation_failure_no_fetch Nat Unit emptyEnv 0 none (some "") none
      (some "Storgatan") (some 40) rfl (by decide) rfl⟩

/-- Every outcome produced by the strategy loop carries a `response_time`,
provided any recorded best-so-far outcome does. -/
theorem search_person_loop_response_time {σ Page : Type} (E : ScraperEnv σ Page)
    (start_time : ℚ) (strats : List (String × ℚ)) (s : σ)
    (basta : Option SearchResult) (bp : ℚ)
    (hinv : ∀ r, basta = some r → r.response_time.isSome = true) :
    ((search_person_loop E start_time strats s basta bp).1.response_time).isSome = true := by
  induction strats generalizing s basta bp with
  | nil =>
    cases basta with
    | none => simp [search_person_loop]
    | some r => simpa [search_person_loop] using hinv r rfl
  | cons hd rest ih =>
    obtain ⟨strategi, konf⟩ := hd
    rw [search_person_loop]
    split
    · exact ih _ basta bp hinv
    · split
      · exact ih _ basta bp hinv
      · rfl
      · dsimp only
        split_ifs with hlen hbp
        · refine ih _ _ _ ?_
          intro r hr
          cases hr
          rfl
        · exact ih _ basta bp hinv
        · exact ih _ basta bp hinv

/-- C9 counterexample: the outcome returned when validation fails (no
identity criterion supplied) does not carry an elapsed time — its
`response_time` is `None`, contradicting the claim that every outcome
carries `elapsedSeconds` as a float. -/
theorem C9_counterexample_validation_has_no_response_time :
    (search_person emptyEnv 0 none none none none none).1.response_time = none := rfl

/-- C9 (amended): every outcome of a call that passes validation (at
least one of first name, last name, city present) carries a
`response_time`, measured from `start_time = now(s0)` to finalization;
the validation-failure outcome alone leaves `response_time` absent. -/
theorem C9_response_time_after_validation :
    (∀ (σ Page : Type) (E : ScraperEnv σ Page) (s0 : σ)
        (fornamn efternamn ort gata : Option String) (alder : Option Int),
      (strTruthy fornamn || strTruthy efternamn || strTruthy ort) = true →
      ((search_person E s0 fornamn efternamn ort gata alder).1.response_time).isSome = true)
    ∧ (∀ (σ Page : Type) (E : ScraperEnv σ Page) (s0 : σ)
        (fornamn efternamn ort gata : Option String) (alder : Option Int),
      strTruthy fornamn = false → strTruthy efternamn = false → strTruthy ort = false →
      (search_person E s0 fornamn efternamn ort gata alder).1.response_time = none) := by
  constructor
  · intro σ Page E s0 fn en ot ga al h
    simp only [search_person, h, Bool.not_true, Bool.false_eq_true, if_false]
    exact search_person_loop_response_time E _ _ s0 none 0 (by intro r hr; cases hr)
  · intro σ Page E s0 fn en ot ga al h1 h2 h3
    simp [search_person, h1, h2, h3]

/-- Witness for C9's amended statement at a concrete passing call. -/
theorem C9_response_time_after_validation_witness :
    (strTruthy (some "Anna") || strTruthy none || strTruthy none) = true ∧
    ((search_person emptyEnv 0 (some "Anna") none none none none).1.response_time).isSome
      = true :=
  ⟨by decide,
    C9_response_time_after_validation.1 Nat Unit emptyEnv 0 (some "Anna") none none none none
      (by decide)⟩

/-- C2: whenever the fetch for the head strategy succeeds and extraction
yields exactly one person, the loop fetches that person's profile page
(via `fetch_vehicle_info_robust`), extracts vehicles from it, computes
the quality score, and returns that success outcome immediately — the
result does not depend on the remaining strategies `rest` nor on the
recorded fallback. -/
theorem C2_single_match_wins :
    ∀ (σ Page : Type) (E : ScraperEnv σ Page) (start_time : ℚ)
      (strategi : String) (konf : ℚ) (rest : List (String × ℚ)) (s s' : σ)
      (basta : Option SearchResult) (bp : ℚ) (soup : Page) (person : PersonResult),
      E.safe_request s ("https://www.merinfo.se/search?q=" ++ E.quote_plus strategi)
        = (some soup, s') →
      E.extract_all_persons_robust soup = [person] →
      search_person_loop E start_time ((strategi, konf) :: rest) s basta bp =
        ({ success := true, persons := [person],
           vehicles := (fetch_vehicle_info_robust E s' person.profil_url).1,
           quality_score := calculate_quality_score [person]
             (fetch_vehicle_info_robust E s' person.profil_url).1,
           search_strategy := some strategi,
           response_time :=
             some (E.now (fetch_vehicle_info_robust E s' person.profil_url).2 - start_time) },
         (fetch_vehicle_info_robust E s' person.profil_url).2) := by
  intro σ Page E st strategi konf rest s s' basta bp soup person hf he
  simp only [search_person_loop, hf, he]

/-- Witness for C2: in `singleHitEnv` the query "q" yields exactly
`onePerson`, whose profile page yields `oneVehicle`; the loop stops at the
head strategy even though another strategy follows. -/
theorem C2_single_match_wins_witness :
    singleHitEnv.safe_request 0 ("https://www.merinfo.se/search?q="
        ++ singleHitEnv.quote_plus "q")
      = (some "https://www.merinfo.se/search?q=q", 1) ∧
    singleHitEnv.extract_all_persons_robust "https://www.merinfo.se/search?q=q" = [onePerson] ∧
    fetch_vehicle_info_robust singleHitEnv 1 onePerson.profil_url = ([oneVehicle], 2) ∧
    search_person_loop singleHitEnv 0 [("q", 1), ("nästa", 1/2)] 0 none 0 =
      ({ success := true, persons := [onePerson],
         vehicles := (fetch_vehicle_info_robust singleHitEnv 1 onePerson.profil_url).1,
         quality_score := calculate_quality_score [onePerson]
           (fetch_vehicle_info_robust singleHitEnv 1 onePerson.profil_url).1,
         search_strategy := some "q",
         response_time :=
           some (singleHitEnv.now
             (fetch_vehicle_info_robust singleHitEnv 1 onePerson.profil_url).2 - 0) },
       (fetch_vehicle_info_robust singleHitEnv 1 onePerson.profil_url).2) :=
  ⟨rfl, by decide, by decide,
    C2_single_match_wins Nat String singleHitEnv 0 "q" 1 [("nästa", 1/2)] 0 1 none 0
      "https://www.merinfo.se/search?q=q" onePerson rfl (by decide)⟩

/-- The result of the strategy loop is successful exactly when it holds a
single person, provided any recorded best-so-far outcome is an
unsuccessful multi-person outcome. -/
theorem search_person_loop_success_iff {σ Page : Type} (E : ScraperEnv σ Page)
    (start_time : ℚ) (strats : List (String × ℚ)) (s : σ)
    (basta : Option SearchResult) (bp : ℚ)
    (hinv : ∀ r, basta = some r → r.success = false ∧ r.persons.length ≠ 1) :
    ((search_person_loop E start_time strats s basta bp).1.success = true
      ↔ (search_person_loop E start_time strats s basta bp).1.persons.length = 1) := by
  induction strats generalizing s basta bp with
  | nil =>
    cases basta with
    | none => simp [search_person_loop]
    | some r =>
      have h := hinv r rfl
      simp [search_person_loop, h.1, h.2]
  | cons hd rest ih =>
    obtain ⟨strategi, konf⟩ := hd
    rw [search_person_loop]
    split
    · exact ih _ basta bp hinv
    · split
      · exact ih _ basta bp hinv
      · simp
      · dsimp only
        split_ifs with hlen hbp
        · refine ih _ _ _ ?_
          intro r hr
          cases hr
          exact ⟨rfl, by simp⟩
        · exact ih _ basta bp hinv
        · exact ih _ basta bp hinv

/-- C8: a `search_person` outcome is successful exactly when its person
list has length one — the single-match branch is the only success path;
validation failure, multi-match fallback and exhaustion all return
`success = false` with 0 or 2-3 persons. -/
theorem C8_success_iff_single_person :
    ∀ (σ Page : Type) (E : ScraperEnv σ Page) (s0 : σ)
      (fornamn efternamn ort gata : Option String) (alder : Option Int),
      ((search_person E s0 fornamn efternamn ort gata alder).1.success = true
        ↔ (search_person E s0 fornamn efternamn ort gata alder).1.persons.length = 1) := by
  intro σ Page E s0 fn en ot ga al
  cases hb : (strTruthy fn || strTruthy en || strTruthy ot) with
  | false => simp [search_person, hb]
  | true =>
    simp only [search_person, hb, Bool.not_true, Bool.false_eq_true, if_false]
    exact search_person_loop_success_iff E _ _ s0 none 0 (by intro r hr; cases hr)

/-- C4: when no strategy single-matches — (i) a head strategy yielding 2-3
persons records a fallback outcome (unsuccessful, with the multi-match
message and the disambiguation suggestions) exactly when its quality score
strictly exceeds the best score so far, then continues with the remaining
strategies; (ii) a head strategy yielding more than 3 persons is discarded
and the loop continues unchanged; (iii) after exhausting all strategies
the loop returns the recorded best fallback, else the "Inga resultat
hittades" failure; (iv) the suggestion values are the persons' distinct
streets and distinct ages, each list capped at 5 entries. -/
theorem C4_fallback_best_so_far :
    (∀ (σ Page : Type) (E : ScraperEnv σ Page) (start_time : ℚ)
        (strategi : String) (konf : ℚ) (rest : List (String × ℚ)) (s s' : σ)
        (basta : Option SearchResult) (bp : ℚ) (soup : Page)
        (p q : PersonResult) (more : List PersonResult),
      E.safe_request s ("https://www.merinfo.se/search?q=" ++ E.quote_plus strategi)
        = (some soup, s') →
      E.extract_all_persons_robust soup = p :: q :: more →
      (p :: q :: more).length ≤ 3 →
      search_person_loop E start_time ((strategi, konf) :: rest) s basta bp =
        (if bp < calculate_quality_score (p :: q :: more) [] then
          search_person_loop E start_time rest s'
            (some { success := false, persons := p :: q :: more, vehicles := [],
                    quality_score := calculate_quality_score (p :: q :: more) [],
                    error_message := some ("Flera resultat ("
                      ++ toString (p :: q :: more).length ++ "), specificera gata"),
                    search_strategy := some strategi,
                    response_time := some (E.now s' - start_time),
                    suggestions := some (generate_suggestions (p :: q :: more)) })
            (calculate_quality_score (p :: q :: more) [])
        else search_person_loop E start_time rest s' basta bp))
    ∧ (∀ (σ Page : Type) (E : ScraperEnv σ Page) (start_time : ℚ)
        (strategi : String) (konf : ℚ) (rest : List (String × ℚ)) (s s' : σ)
        (basta : Option SearchResult) (bp : ℚ) (soup : Page)
        (p q : PersonResult) (more : List PersonResult),
      E.safe_request s ("https://www.merinfo.se/search?q=" ++ E.quote_plus strategi)
        = (some soup, s') →
      E.extract_all_persons_robust soup = p :: q :: more →
      ¬ ((p :: q :: more).length ≤ 3) →
      search_person_loop E start_time ((strategi, konf) :: rest) s basta bp =
        search_person_loop E start_time rest s' basta bp)
    ∧ (∀ (σ Page : Type) (E : ScraperEnv σ Page) (start_time : ℚ) (s : σ)
        (bp : ℚ) (r : SearchResult),
      search_person_loop E start_time [] s (some r) bp = (r, s))
    ∧ (∀ (σ Page : Type) (E : ScraperEnv σ Page) (start_time : ℚ) (s : σ) (bp : ℚ),
      search_person_loop E start_time [] s none bp =
        ({ success := false, persons := [], vehicles := [], quality_score := 0,
           error_message := some "Inga resultat hittades",
           response_time := some (E.now s - start_time) }, s))
    ∧ (∀ personer : List PersonResult,
        (gataSuggestValues personer).Nodup ∧ (gataSuggestValues personer).length ≤ 5
        ∧ (∀ g ∈ gataSuggestValues personer, ∃ p ∈ personer, p.gata = g ∧ p.gata ≠ "")
        ∧ (alderSuggestValues personer).Nodup ∧ (alderSuggestValues personer).length ≤ 5
        ∧ (∀ a ∈ alderSuggestValues personer,
            ∃ p ∈ personer, intTruthy p.alder = true ∧ a = toString (p.alder.getD 0))) := by
  refine ⟨?_, ?_, ?_, ?_, ?_⟩
  · intro σ Page E st strategi konf rest s s' basta bp soup p q more hf he h3
    simp only [search_person_loop, hf, he]
    rw [if_pos h3]
  · intro σ Page E st strategi konf rest s s' basta bp soup p q more hf he h3
    simp only [search_person_loop, hf, he]
    rw [if_neg h3]
  · intro σ Page E st s bp r
    rfl
  · intro σ Page E st s bp
    rfl
  · intro personer
    refine ⟨?_, ?_, ?_, ?_, ?_, ?_⟩
    · exact ((List.nodup_dedup _).sublist (List.take_sublist _ _))
    · exact List.length_take_le _ _
    · intro g hg
      have hg' := List.mem_dedup.mp (List.mem_of_mem_take hg)
      rcases List.mem_filterMap.mp hg' with ⟨p, hp, hif⟩
      by_cases hgata : p.gata = ""
      · rw [if_pos hgata] at hif; cases hif
      · rw [if_neg hgata] at hif
        exact ⟨p, hp, by cases hif; exact ⟨rfl, hgata⟩⟩
    · exact ((List.nodup_dedup _).sublist (List.take_sublist _ _))
    · exact List.length_take_le _ _
    · intro a ha
      have ha' := List.mem_dedup.mp (List.mem_of_mem_take ha)
      rcases List.mem_filterMap.mp ha' with ⟨p, hp, hif⟩
      by_cases htr : intTruthy p.alder = true
      · rw [if_pos htr] at hif
        exact ⟨p, hp, htr, by cases hif; rfl⟩
      · rw [if_neg htr] at hif; cases hif

/-- Witness for C4: in `twoHitEnv` the query "q" yields two persons, so
the head strategy records a fallback (here against an empty best-so-far)
and the loop then exhausts the remaining strategies. -/
theorem C4_fallback_best_so_far_witness :
    twoHitEnv.safe_request 0 ("https://www.merinfo.se/search?q="
        ++ twoHitEnv.quote_plus "q")
      = (some "https://www.merinfo.se/search?q=q", 1) ∧
    twoHitEnv.extract_all_persons_robust "https://www.merinfo.se/search?q=q"
      = [onePerson, otherPerson] ∧
    ([onePerson, otherPerson].length ≤ 3) ∧
    search_person_loop twoHitEnv 0 [("q", 1)] 0 none 0 =
      (if (0:ℚ) < calculate_quality_score [onePerson, otherPerson] [] then
        search_person_loop twoHitEnv 0 [] 1
          (some { success := false, persons := [onePerson, otherPerson], vehicles := [],
                  quality_score := calculate_quality_score [onePerson, otherPerson] [],
                  error_message := some ("Flera resultat ("
                    ++ toString ([onePerson, otherPerson].length) ++ "), specificera gata"),
                  search_strategy := some "q",
                  response_time := some (twoHitEnv.now 1 - 0),
                  suggestions := some (generate_suggestions [onePerson, otherPerson]) })
          (calculate_quality_score [onePerson, otherPerson] [])
      else search_person_loop twoHitEnv 0 [] 1 none 0) :=
  ⟨rfl, by decide, by decide,
    C4_fallback_best_so_far.1 Nat String twoHitEnv 0 "q" 1 [] 0 1 none 0
      "https://www.merinfo.se/search?q=q" onePerson otherPerson [] rfl (by decide) (by decide)⟩

/-- Membership is preserved by the stable insertion step. -/
theorem mem_insertByConfDesc {p c : String × ℚ} {l : List (String × ℚ)} :
    c ∈ insertByConfDesc p l ↔ c = p ∨ c ∈ l := by
  induction l with
  | nil => simp [insertByConfDesc]
  | cons q qs ih =>
    by_cases h : p.2 < q.2
    · rw [insertByConfDesc, if_pos h]
      simp only [List.mem_cons, ih]
      tauto
    · rw [insertByConfDesc, if_neg h]
      simp only [List.mem_cons]

/-- Inserting into a confidence-descending list keeps it descending. -/
theorem sorted_insertByConfDesc {p : String × ℚ} {l : List (String × ℚ)}
    (hl : l.Pairwise (fun a b => b.2 ≤ a.2)) :
    (insertByConfDesc p l).Pairwise (fun a b => b.2 ≤ a.2) := by
  induction l with
  | nil => simp [insertByConfDesc]
  | cons q qs ih =>
    rcases List.pairwise_cons.mp hl with ⟨hq, hqs⟩
    by_cases h : p.2 < q.2
    · rw [insertByConfDesc, if_pos h]
      refine List.pairwise_cons.mpr ⟨?_, ih hqs⟩
      intro b hb
      rcases mem_insertByConfDesc.mp hb with rfl | hb'
      · exact le_of_lt h
      · exact hq b hb'
    · rw [insertByConfDesc, if_neg h]
      refine List.pairwise_cons.mpr ⟨?_, hl⟩
      intro b hb
      rcases List.mem_cons.mp hb with rfl | hb'
      · exact le_of_not_lt h
      · exact le_trans (hq b hb') (le_of_not_lt h)

/-- The modelled Python sort produces a confidence-descending list. -/
theorem sorted_sortByConfDesc (l : List (String × ℚ)) :
    (sortByConfDesc l).Pairwise (fun a b => b.2 ≤ a.2) := by
  induction l with
  | nil => simp [sortByConfDesc]
  | cons p ps ih => exact sorted_insertByConfDesc ih

/-- The modelled Python sort preserves membership. -/
theorem mem_sortByConfDesc {c : String × ℚ} {l : List (String × ℚ)} :
    c ∈ sortByConfDesc l ↔ c ∈ l := by
  induction l with
  | nil => simp [sortByConfDesc]
  | cons p ps ih => simp [sortByConfDesc, mem_insertByConfDesc, ih]

/-- Stability of the insertion step: restricted to any one confidence
value, insertion prepends the new candidate (which was generated before
everything already sorted past it). -/
theorem filter_insertByConfDesc (p : String × ℚ) (l : List (String × ℚ)) (conf : ℚ) :
    (insertByConfDesc p l).filter (fun c => c.2 == conf)
      = if p.2 == conf then p :: l.filter (fun c => c.2 == conf)
        else l.filter (fun c => c.2 == conf) := by
  induction l with
  | nil => by_cases hp : p.2 = conf <;> simp [insertByConfDesc, List.filter_cons, hp]
  | cons q qs ih =>
    by_cases h : p.2 < q.2
    · rw [insertByConfDesc, if_pos h]
      by_cases hq : q.2 = conf <;> by_cases hp : p.2 = conf
      · exfalso
        rw [hp, ← hq] at h
        exact lt_irrefl _ h
      · simp [List.filter_cons, hq, hp, ih]
      · simp [List.filter_cons, hq, hp, ih]
      · simp [List.filter_cons, hq, hp, ih]
    · rw [insertByConfDesc, if_neg h]
      by_cases hp : p.2 = conf <;> simp [List.filter_cons, hp]

/-- Stability of the modelled Python sort: candidates of equal confidence
keep their generation order. -/
theorem filter_sortByConfDesc (l : List (String × ℚ)) (conf : ℚ) :
    (sortByConfDesc l).filter (fun c => c.2 == conf)
      = l.filter (fun c => c.2 == conf) := by
  induction l with
  | nil => rfl
  | cons p ps ih =>
    rw [sortByConfDesc, filter_insertByConfDesc, ih]
    by_cases h : p.2 = conf <;> simp [List.filter_cons, h]

/-- The builder is the stable confidence-descending sort of the generated
candidates, truncated to four. -/
theorem builder_eq_take_sort_raw (f e o g : Option String) (a : Option Int) :
    intelligent_search_builder f e o g a = (sortByConfDesc (strategyRaw f e o g a)).take 4 := rfl

/-- Membership in a conditional singleton yields the guard and the value. -/
theorem mem_ite_singleton {α : Type} {P : Prop} [Decidable P] {x c : α}
    (h : c ∈ (if P then [x] else [])) : P ∧ c = x := by
  by_cases hp : P
  · rw [if_pos hp] at h
    simp at h
    exact ⟨hp, h⟩
  · rw [if_neg hp] at h
    simp at h

/-- Every candidate produced by the builder was generated under its rule's
guard: the fields its rule requires are non-empty after normalization. -/
theorem strategy_fields_present (f e o g : Option String) (a : Option Int)
    (c : String × ℚ) (hc : c ∈ intelligent_search_builder f e o g a) :
    strategyFieldsOk f e o g a c := by
  rw [builder_eq_take_sort_raw] at hc
  have h1 : c ∈ strategyRaw f e o g a := mem_sortByConfDesc.mp (List.mem_of_mem_take hc)
  simp only [strategyRaw, List.mem_append] at h1
  simp only [strategyFieldsOk]
  rcases h1 with (((h | h) | h) | h) | h
  · obtain ⟨hcond, rfl⟩ := mem_ite_singleton h
    simp only [Bool.and_eq_true] at hcond
    refine ⟨fun _ => ⟨hcond.1.1, hcond.1.2, hcond.2⟩, ?_, ?_, ?_, ?_, ?_⟩ <;>
      intro hq <;> exact absurd hq (by norm_num)
  · by_cases hP : (strTruthy (normalizeIfTruthy g) && strTruthy (normalizeIfTruthy o)) = true
    · rw [if_pos hP] at h
      simp only [Bool.and_eq_true] at hP
      by_cases hQ : (strTruthy (normalizeIfTruthy f) && strTruthy (normalizeIfTruthy e)) = true
      · rw [if_pos hQ] at h
        simp only [Bool.and_eq_true] at hQ
        simp at h
        subst h
        refine ⟨?_, fun _ => ⟨hQ.1, hQ.2, hP.1, hP.2⟩, ?_, ?_, ?_, ?_⟩ <;>
          intro hq <;> exact absurd hq (by norm_num)
      · rw [if_neg hQ] at h
        by_cases hR : strTruthy (normalizeIfTruthy f) = true
        · rw [if_pos hR] at h
          simp at h
          subst h
          refine ⟨?_, ?_, fun _ => ⟨hR, hP.1, hP.2⟩, ?_, ?_, ?_⟩ <;>
            intro hq <;> exact absurd hq (by norm_num)
        · rw [if_neg hR] at h
          simp at h
    · rw [if_neg hP] at h
      simp at h
  · obtain ⟨hcond, rfl⟩ := mem_ite_singleton h
    simp only [Bool.and_eq_true] at hcond
    refine ⟨?_, ?_, ?_, fun _ => ⟨hcond.1, hcond.2⟩, ?_, ?_⟩ <;>
      intro hq <;> exact absurd hq (by norm_num)
  · obtain ⟨hcond, rfl⟩ := mem_ite_singleton h
    simp only [Bool.and_eq_true] at hcond
    refine ⟨?_, ?_, ?_, ?_, fun _ => ⟨hcond.1, hcond.2⟩, ?_⟩ <;>
      intro hq <;> exact absurd hq (by norm_num)
  · obtain ⟨hcond, rfl⟩ := mem_ite_singleton h
    simp only [Bool.and_eq_true] at hcond
    refine ⟨?_, ?_, ?_, ?_, ?_, fun _ => ⟨hcond.1.1, hcond.1.2, hcond.2⟩⟩ <;>
      intro hq <;> exact absurd hq (by norm_num)

/-- C3: the builder returns at most 4 candidates, sorted descending by
confidence; its sort is stable (candidates of equal confidence keep
generation order); every returned candidate's required fields are present
(non-empty after normalization); and for Anna/Svensson/Stockholm the top
candidate is exactly the first+last+city composition with confidence 1. -/
theorem C3_strategy_builder :
    (∀ (f e o g : Option String) (a : Option Int),
        (intelligent_search_builder f e o g a).length ≤ 4)
    ∧ (∀ (f e o g : Option String) (a : Option Int),
        (intelligent_search_builder f e o g a).Pairwise (fun c d => d.2 ≤ c.2))
    ∧ (∀ (l : List (String × ℚ)) (conf : ℚ),
        (sortByConfDesc l).filter (fun c => c.2 == conf)
          = l.filter (fun c => c.2 == conf))
    ∧ (∀ (f e o g : Option String) (a : Option Int) (c : String × ℚ),
        c ∈ intelligent_search_builder f e o g a → strategyFieldsOk f e o g a c)
    ∧ ((intelligent_search_builder (some "Anna") (some "Svensson") (some "Stockholm")
          none none).head? = some ("Anna+Svensson+Stockholm", 1)) := by
  refine ⟨?_, ?_, filter_sortByConfDesc, strategy_fields_present, ?_⟩
  · intro f e o g a
    rw [builder_eq_take_sort_raw]
    exact List.length_take_le _ _
  · intro f e o g a
    rw [builder_eq_take_sort_raw]
    exact List.Pairwise.sublist (List.take_sublist _ _) (sorted_sortByConfDesc _)
  · have hb : intelligent_search_builder (some "Anna") (some "Svensson") (some "Stockholm")
        none none
        = [("Anna+Svensson+Stockholm", 1), ("Anna+Stockholm", 7/10),
           ("Svensson+Stockholm", 3/5)] := by
      simp only [intelligent_search_builder, normalizeIfTruthy, strTruthy]
      norm_num [sortByConfDesc, insertByConfDesc]
      decide
    rw [hb]
    rfl

/-- Witness for C3: the top Anna/Svensson/Stockholm candidate is a member
of the builder output and its required fields are present. -/
theorem C3_strategy_builder_witness :
    ("Anna+Svensson+Stockholm", (1:ℚ)) ∈ intelligent_search_builder (some "Anna")
        (some "Svensson") (some "Stockholm") none none
    ∧ strategyFieldsOk (some "Anna") (some "Svensson") (some "Stockholm") none none
        ("Anna+Svensson+Stockholm", (1:ℚ)) :=
  have hb : intelligent_search_builder (some "Anna") (some "Svensson") (some "Stockholm")
      none none
      = [("Anna+Svensson+Stockholm", 1), ("Anna+Stockholm", 7/10),
         ("Svensson+Stockholm", 3/5)] := by
    simp only [intelligent_search_builder, normalizeIfTruthy, strTruthy]
    norm_num [sortByConfDesc, insertByConfDesc]
    decide
  have hmem : ("Anna+Svensson+Stockholm", (1:ℚ)) ∈ intelligent_search_builder (some "Anna")
      (some "Svensson") (some "Stockholm") none none := by
    rw [hb]
    exact List.mem_cons_self _ _
  ⟨hmem, C3_strategy_builder.2.2.2.1 (some "Anna") (some "Svensson") (some "Stockholm")
    none none ("Anna+Svensson+Stockholm", (1:ℚ)) hmem⟩

/-- Dict assignment grows the dict by at most one entry. -/
theorem dictInsert_length_le (l : List (String × String × ℚ)) (k v : String) (t : ℚ) :
    (dictInsert l k v t).length ≤ l.length + 1 := by
  induction l with
  | nil => simp [dictInsert]
  | cons e es ih =>
    rw [dictInsert]
    split_ifs with h
    · simp
    · simpa using Nat.succ_le_succ ih

/-- Assigning a key not present in the dict appends the new entry. -/
theorem dictInsert_fresh {l : List (String × String × ℚ)} {k : String}
    (hk : ∀ e ∈ l, e.1 ≠ k) (v : String) (t : ℚ) :
    dictInsert l k v t = l ++ [(k, v, t)] := by
  induction l with
  | nil => rfl
  | cons e es ih =>
    have ih' := ih (fun x hx => hk x (List.mem_cons_of_mem e hx))
    rw [dictInsert, if_neg (hk e (List.mem_cons_self e es)), ih']
    simp

/-- The oldest entry is an entry of the dict. -/
theorem oldestEntry_mem {l : List (String × String × ℚ)} {e : String × String × ℚ}
    (h : oldestEntry l = some e) : e ∈ l := by
  induction l generalizing e with
  | nil => cases h
  | cons x xs ih =>
    rw [oldestEntry] at h
    rcases hm : oldestEntry xs with _ | m
    · rw [hm] at h
      cases h
      exact List.mem_cons_self _ _
    · rw [hm] at h
      simp only [Option.some.injEq] at h
      subst h
      split_ifs with hlt
      · exact List.mem_cons_of_mem x (ih hm)
      · exact List.mem_cons_self _ _

/-- The oldest entry has a minimal insertion timestamp. -/
theorem oldestEntry_min {l : List (String × String × ℚ)} {e : String × String × ℚ}
    (h : oldestEntry l = some e) : ∀ x ∈ l, e.2.2 ≤ x.2.2 := by
  induction l generalizing e with
  | nil => cases h
  | cons x xs ih =>
    intro y hy
    rw [oldestEntry] at h
    rcases hm : oldestEntry xs with _ | m
    · rw [hm] at h
      cases h
      rcases List.mem_cons.mp hy with rfl | hy'
      · exact le_refl _
      · cases xs with
        | nil => cases hy'
        | cons z zs =>
          exfalso
          rw [oldestEntry] at hm
          rcases hz : oldestEntry zs with _ | _ <;> rw [hz] at hm <;> cases hm
    · rw [hm] at h
      simp only [Option.some.injEq] at h
      subst h
      rcases List.mem_cons.mp hy with rfl | hy'
      · split_ifs with hlt
        · exact le_of_lt hlt
        · exact le_refl _
      · split_ifs with hlt
        · exact ih hm y hy'
        · exact le_trans (le_of_not_lt hlt) (ih hm y hy')

/-- A non-empty dict has an oldest entry. -/
theorem oldestEntry_cons_isSome (x : String × String × ℚ) (xs : List (String × String × ℚ)) :
    ∃ e, oldestEntry (x :: xs) = some e := by
  rw [oldestEntry]
  rcases hm : oldestEntry xs with _ | m
  · exact ⟨x, rfl⟩
  · exact ⟨if m.2.2 < x.2.2 then m else x, rfl⟩

/-- With nondecreasing timestamps (as produced by a monotone clock), the
oldest entry is the first-inserted one. -/
theorem oldestEntry_sorted {x : String × String × ℚ} {xs : List (String × String × ℚ)}
    (hs : (x :: xs).Pairwise (fun a b => a.2.2 ≤ b.2.2)) :
    oldestEntry (x :: xs) = some x := by
  rw [oldestEntry]
  rcases hm : oldestEntry xs with _ | m
  · rfl
  · have hmem := oldestEntry_mem hm
    have hle := (List.pairwise_cons.mp hs).1 m hmem
    dsimp only
    rw [if_neg (not_lt.mpr hle)]

/-- Deleting the head key leaves the tail. -/
theorem delKey_cons_self (x : String × String × ℚ) (xs : List (String × String × ℚ)) :
    delKey x.1 (x :: xs) = xs := by
  rw [delKey, if_pos rfl]

/-- Deleting a present key removes exactly one entry. -/
theorem delKey_length {l : List (String × String × ℚ)} {e : String × String × ℚ}
    (he : e ∈ l) : (delKey e.1 l).length + 1 = l.length := by
  induction l with
  | nil => cases he
  | cons x xs ih =>
    rw [delKey]
    split_ifs with h
    · rfl
    · rcases List.mem_cons.mp he with rfl | he'
      · exact absurd rfl h
      · simpa using ih he'

/-- `set` does not change the capacity. -/
theorem set_max_size (c : MerinfoCache) (k v : String) (t : ℚ) :
    (c.set k v t).max_size = c.max_size := rfl

/-- Unfolding one step of a `set` sequence. -/
theorem setAll_cons (c : MerinfoCache) (op : String × String × ℚ)
    (rest : List (String × String × ℚ)) :
    c.setAll (op :: rest) = (c.set op.1 op.2.1 op.2.2).setAll rest := rfl

/-- One `set` keeps the cache within capacity (for a positive capacity,
as the constructor default 100 always is). -/
theorem set_length_le (c : MerinfoCache) (k v : String) (t : ℚ)
    (hmax : 1 ≤ c.max_size) (hlen : c.cache.length ≤ c.max_size) :
    (c.set k v t).cache.length ≤ c.max_size := by
  rw [MerinfoCache.set]
  by_cases hfull : c.max_size ≤ c.cache.length
  · have heq : c.cache.length = c.max_size := le_antisymm hlen hfull
    rcases hne : c.cache with _ | ⟨x, xs⟩
    · rw [hne] at heq
      simp at heq
      omega
    · rw [hne] at hfull heq
      obtain ⟨e, he⟩ := oldestEntry_cons_isSome x xs
      rw [if_pos hfull, he]
      dsimp only
      have hdel : (delKey e.1 (x :: xs)).length + 1 = (x :: xs).length :=
        delKey_length (oldestEntry_mem he)
      have hins := dictInsert_length_le (delKey e.1 (x :: xs)) k v t
      omega
  · rw [if_neg hfull]
    dsimp only
    have hins := dictInsert_length_le c.cache k v t
    omega

/-- Any sequence of `set` operations keeps the cache within capacity. -/
theorem setAll_length_le (ops : List (String × String × ℚ)) (c : MerinfoCache)
    (hmax : 1 ≤ c.max_size) (hlen : c.cache.length ≤ c.max_size) :
    (c.setAll ops).cache.length ≤ c.max_size := by
  induction ops generalizing c with
  | nil => exact hlen
  | cons op rest ih =>
    rw [setAll_cons]
    have h1 := set_length_le c op.1 op.2.1 op.2.2 hmax hlen
    exact ih (c.set op.1 op.2.1 op.2.2) hmax h1

/-- Filling a cache with fresh distinct keys, without reaching capacity,
appends the entries in insertion order. -/
theorem setAll_fresh (ops : List (String × String × ℚ)) (c : MerinfoCache)
    (hlen : c.cache.length + ops.length ≤ c.max_size)
    (hdisj : ∀ k ∈ ops.map (fun e => e.1), k ∉ c.cache.map (fun e => e.1))
    (hnodup : (ops.map (fun e => e.1)).Nodup) :
    (c.setAll ops).cache = c.cache ++ ops := by
  induction ops generalizing c with
  | nil => simp [MerinfoCache.setAll]
  | cons op rest ih =>
    have hfresh : ∀ e ∈ c.cache, e.1 ≠ op.1 := by
      intro e he hop
      exact hdisj op.1 (by simp) (by rw [← hop]; exact List.mem_map_of_mem _ he)
    have hnotfull : ¬ (c.max_size ≤ c.cache.length) := by
      simp only [List.length_cons] at hlen
      omega
    have hset : (c.set op.1 op.2.1 op.2.2).cache = c.cache ++ [op] := by
      rw [MerinfoCache.set, if_neg hnotfull]
      exact dictInsert_fresh hfresh op.2.1 op.2.2
    have hnodup2 : (op.1 :: rest.map (fun e => e.1)).Nodup := by
      simpa using hnodup
    have hlen2 : (c.set op.1 op.2.1 op.2.2).cache.length + rest.length
        ≤ (c.set op.1 op.2.1 op.2.2).max_size := by
      rw [hset, set_max_size]
      simp only [List.length_cons] at hlen
      simp only [List.length_append, List.length_cons, List.length_nil]
      omega
    have hdisj2 : ∀ k ∈ rest.map (fun e => e.1),
        k ∉ (c.set op.1 op.2.1 op.2.2).cache.map (fun e => e.1) := by
      intro k hk
      rw [hset]
      simp only [List.map_append, List.mem_append]
      rintro (hc | hop)
      · exact hdisj k (by simp only [List.map_cons]; exact List.mem_cons_of_mem _ hk) hc
      · simp only [List.map_cons, List.map_nil, List.mem_singleton] at hop
        subst hop
        exact (List.nodup_cons.mp hnodup2).1 hk
    rw [setAll_cons, ih (c.set op.1 op.2.1 op.2.2) hlen2 hdisj2 (List.nodup_cons.mp hnodup2).2,
      hset, List.append_assoc]
    rfl

/-- A `set` sequence does not change the capacity. -/
theorem setAll_max_size (c : MerinfoCache) (ops : List (String × String × ℚ)) :
    (c.setAll ops).max_size = c.max_size := by
  induction ops generalizing c with
  | nil => rfl
  | cons op rest ih =>
    rw [setAll_cons]
    exact ih _

/-- Inserting capacity-plus-one distinct keys with nondecreasing
timestamps into an empty cache evicts exactly the first-inserted entry. -/
theorem setAll_maxplus1 (maxsz : ℕ) (ttl : ℚ) (f l0 : String × String × ℚ)
    (front' : List (String × String × ℚ))
    (hmaxlen : front'.length + 1 = maxsz)
    (hnodup : ((f :: (front' ++ [l0])).map (fun e => e.1)).Nodup)
    (hts : (f :: (front' ++ [l0])).Pairwise (fun a b => a.2.2 ≤ b.2.2)) :
    (MerinfoCache.setAll ⟨[], maxsz, ttl⟩ (f :: (front' ++ [l0]))).cache = front' ++ [l0] := by
  have hsub : List.Sublist (f :: front') (f :: (front' ++ [l0])) := by
    rw [show f :: (front' ++ [l0]) = (f :: front') ++ [l0] from rfl]
    exact List.sublist_append_left _ _
  have hnodup1 : ((f :: front').map (fun e => e.1)).Nodup :=
    hnodup.sublist (hsub.map _)
  have hts1 : (f :: front').Pairwise (fun a b => a.2.2 ≤ b.2.2) :=
    hts.sublist hsub
  have hsplit : f :: (front' ++ [l0]) = (f :: front') ++ [l0] := rfl
  have hfold : MerinfoCache.setAll ⟨[], maxsz, ttl⟩ (f :: (front' ++ [l0]))
      = (MerinfoCache.setAll ⟨[], maxsz, ttl⟩ (f :: front')).set l0.1 l0.2.1 l0.2.2 := by
    rw [hsplit, MerinfoCache.setAll, List.foldl_append]
    rfl
  have hfill : (MerinfoCache.setAll ⟨[], maxsz, ttl⟩ (f :: front')).cache = f :: front' := by
    have := setAll_fresh (f :: front') ⟨[], maxsz, ttl⟩ (by simp; omega) (by simp)
      hnodup1
    simpa using this
  have hmaxeq : (MerinfoCache.setAll ⟨[], maxsz, ttl⟩ (f :: front')).max_size = maxsz :=
    setAll_max_size _ _
  have hlen1 : (f :: front').length = maxsz := by simp [hmaxlen]
  have hl0fresh : ∀ e ∈ front', e.1 ≠ l0.1 := by
    intro e he heq
    simp only [List.map_cons, List.nodup_cons, List.map_append, List.nodup_append] at hnodup
    exact hnodup.2.2.2 (List.mem_map_of_mem _ he) (by simp [heq])
  rw [hfold, MerinfoCache.set]
  dsimp only
  rw [hfill, hmaxeq, hlen1, if_pos (le_refl maxsz), oldestEntry_sorted hts1]
  dsimp only
  rw [delKey_cons_self, dictInsert_fresh hl0fresh]

/-- A non-empty cache always yields an oldest entry. -/
theorem oldestEntry_of_ne_nil {l : List (String × String × ℚ)} (h : l ≠ []) :
    ∃ e, oldestEntry l = some e := by
  cases l with
  | nil => exact absurd rfl h
  | cons x xs => exact oldestEntry_cons_isSome x xs

/-- C6: the cache never exceeds `max_size` entries after any sequence of
`set` operations (given a positive capacity; the source only ever
constructs the cache with the default capacity 100, and with capacity 0
the Python code raises out of `min` before inserting); when a `set` hits
a full cache it evicts exactly an entry of minimal insertion timestamp
before inserting; and inserting `max_size + 1` distinct keys into an
empty cache leaves exactly `max_size` entries with the earliest-inserted
key absent. -/
theorem C6_cache_eviction :
    (∀ (c : MerinfoCache) (k v : String) (t : ℚ),
        1 ≤ c.max_size → c.cache.length ≤ c.max_size →
        (c.set k v t).cache.length ≤ c.max_size)
    ∧ (∀ (ops : List (String × String × ℚ)) (c : MerinfoCache),
        1 ≤ c.max_size → c.cache.length ≤ c.max_size →
        (c.setAll ops).cache.length ≤ c.max_size)
    ∧ (∀ (c : MerinfoCache) (k v : String) (t : ℚ),
        c.max_size ≤ c.cache.length → c.cache ≠ [] →
        ∃ e, oldestEntry c.cache = some e ∧ e ∈ c.cache
          ∧ (∀ x ∈ c.cache, e.2.2 ≤ x.2.2)
          ∧ (c.set k v t).cache = dictInsert (delKey e.1 c.cache) k v t)
    ∧ (∀ (maxsz : ℕ) (ttl : ℚ) (f l0 : String × String × ℚ)
        (front' : List (String × String × ℚ)),
        front'.length + 1 = maxsz →
        ((f :: (front' ++ [l0])).map (fun e => e.1)).Nodup →
        (f :: (front' ++ [l0])).Pairwise (fun a b => a.2.2 ≤ b.2.2) →
        (MerinfoCache.setAll ⟨[], maxsz, ttl⟩ (f :: (front' ++ [l0]))).cache = front' ++ [l0]
          ∧ (MerinfoCache.setAll ⟨[], maxsz, ttl⟩ (f :: (front' ++ [l0]))).cache.length = maxsz
          ∧ f.1 ∉ ((MerinfoCache.setAll ⟨[], maxsz, ttl⟩
              (f :: (front' ++ [l0]))).cache.map (fun e => e.1))) := by
  refine ⟨set_length_le, setAll_length_le, ?_, ?_⟩
  · intro c k v t hfull hne
    obtain ⟨e, he⟩ := oldestEntry_of_ne_nil hne
    refine ⟨e, he, oldestEntry_mem he, oldestEntry_min he, ?_⟩
    rw [MerinfoCache.set, if_pos hfull, he]
  · intro maxsz ttl f l0 front' hmaxlen hnodup hts
    have hmain := setAll_maxplus1 maxsz ttl f l0 front' hmaxlen hnodup hts
    refine ⟨hmain, ?_, ?_⟩
    · rw [hmain]
      simp [hmaxlen]
    · rw [hmain]
      simp only [List.map_cons, List.nodup_cons] at hnodup
      exact hnodup.1

/-- Witness for C6: capacity 2, three distinct keys, timestamps 0,1,2;
the key inserted first is evicted. -/
theorem C6_cache_eviction_witness :
    ([("b","pb",(1:ℚ))].length + 1 = 2)
    ∧ (([("a","pa",(0:ℚ)), ("b","pb",1), ("c","pc",2)].map
        (fun e => e.1)).Nodup)
    ∧ ([("a","pa",(0:ℚ)), ("b","pb",1), ("c","pc",2)].Pairwise
        (fun a b => a.2.2 ≤ b.2.2))
    ∧ (MerinfoCache.setAll ⟨[], 2, 3600⟩
        [("a","pa",(0:ℚ)), ("b","pb",1), ("c","pc",2)]).cache
        = [("b","pb",(1:ℚ)), ("c","pc",2)]
    ∧ (MerinfoCache.setAll ⟨[], 2, 3600⟩
        [("a","pa",(0:ℚ)), ("b","pb",1), ("c","pc",2)]).cache.length = 2
    ∧ "a" ∉ ((MerinfoCache.setAll ⟨[], 2, 3600⟩
        [("a","pa",(0:ℚ)), ("b","pb",1), ("c","pc",2)]).cache.map (fun e => e.1)) :=
  have h1 : ([("b","pb",(1:ℚ))].length + 1 = 2) := rfl
  have h2 : (([("a","pa",(0:ℚ)), ("b","pb",1), ("c","pc",2)].map
      (fun e => e.1)).Nodup) := by decide
  have h3 : ([("a","pa",(0:ℚ)), ("b","pb",1), ("c","pc",2)].Pairwise
      (fun a b => a.2.2 ≤ b.2.2)) := by
    norm_num [List.pairwise_cons]
  have hmain := C6_cache_eviction.2.2.2 2 3600 ("a","pa",(0:ℚ)) ("c","pc",(2:ℚ))
    [("b","pb",(1:ℚ))] h1 h2 h3
  ⟨h1, h2, h3, hmain.1, hmain.2.1, hmain.2.2⟩
